import Mathlib

/-!
A verification development for `parallel_query_processor.py`, the parallel
query processor for TimescaleDB large joins.

The Python source is shallowly embedded:

* `ActivePeriod` and `QueryResult` mirror the two dataclasses.
* Timestamps are modelled as integers (`Int`); `datetime.isoformat()` is
  modelled as the decimal rendering of that integer, which preserves the one
  property that matters for the query-text claims: the value's textual
  rendering is spliced into the SQL string.
* The database visible to the queries is a pair of tables
  (`bench.sensor_data`, `bench.active_periods`); query execution is modelled
  as filtering the join of the two tables by the WHERE predicate that the
  Python code builds, so `row_count = (filtered join).length`.
* Fallible query execution (`conn.fetch` raising) is modelled by passing the
  fetch outcome as an `Except String` value into the function that builds the
  `QueryResult`, mirroring the `try/except` structure of the source.
* The asyncio machinery (`asyncio.gather` with `return_exceptions=True`, the
  `asyncio.Semaphore` bound) is modelled operationally: `gather` fills an
  array of result slots in an arbitrary completion order and reads them back
  in input order, and the semaphore is a small state machine whose traces are
  the possible acquire/release interleavings of `bounded_task`.
-/

/-- Embeds dataclass `ActivePeriod` (source lines 28-34): one time period to
query.  `datetime` timestamps are modelled as `Int`. -/
structure ActivePeriod where
  sensor_id : Int
  start_time : Int
  end_time : Int
  period_id : Option Int := none
deriving DecidableEq, Repr

/-- Embeds dataclass `QueryResult` (source lines 37-44): result of a single
period (or batch) query.  `duration_ms` is a float in the source, modelled as
`ℚ`. -/
structure QueryResult where
  period : Option ActivePeriod
  row_count : Nat
  duration_ms : ℚ
  success : Bool
  error : Option String := none
deriving DecidableEq, Repr

/-- A row of the hypertable `bench.sensor_data`. -/
structure SensorRow where
  sensor_id : Int
  measurement_time : Int
  measurement_value : Int
deriving DecidableEq, Repr

/-- A row of the dimension table `bench.active_periods`. -/
structure PeriodRow where
  sensor_id : Int
  start_time : Int
  end_time : Int
  status : String
deriving DecidableEq, Repr

/-- The database state both query strategies run against. -/
structure DB where
  sensor_data : List SensorRow
  active_periods : List PeriodRow
deriving DecidableEq, Repr

/-- The JOIN condition shared by both query shapes (source lines 170-177 and
254-261): `s.sensor_id = p.sensor_id AND s.measurement_time >= p.start_time
AND s.measurement_time < p.end_time AND p.status = 'DONE'`. -/
def joinCond (s : SensorRow) (p : PeriodRow) : Bool :=
  s.sensor_id == p.sensor_id &&
  p.start_time ≤ s.measurement_time &&
  s.measurement_time < p.end_time &&
  p.status == "DONE"

/-- The joined row set `bench.sensor_data JOIN bench.active_periods` before
the strategy-specific WHERE restriction on `s`; each query returns one output
row per matching `(s, p)` pair. -/
def joinRows (db : DB) : List (SensorRow × PeriodRow) :=
  db.sensor_data.flatMap fun s =>
    (db.active_periods.filter fun p => joinCond s p).map fun p => (s, p)

/-- The per-unit WHERE predicate of `query_single_period` (source lines
174-176): `s.sensor_id = $1 AND s.measurement_time >= $2 AND
s.measurement_time < $3` with the period's values bound. -/
def singleWhere (u : ActivePeriod) (s : SensorRow) : Bool :=
  s.sensor_id == u.sensor_id &&
  u.start_time ≤ s.measurement_time &&
  s.measurement_time < u.end_time

/-- `min(p.start_time for p in periods)` (source line 243); Python's `min`
over a non-empty collection, modelled as a fold from the head. -/
def minStarts : List ActivePeriod → Int
  | [] => 0
  | u :: us => us.foldl (fun a v => min a v.start_time) u.start_time

/-- `max(p.end_time for p in periods)` (source line 244). -/
def maxEnds : List ActivePeriod → Int
  | [] => 0
  | u :: us => us.foldl (fun a v => max a v.end_time) u.end_time

/-- The batched WHERE predicate of `query_batch_periods` (source lines
258-260): the disjunction of the per-period clauses conjoined with the global
time bound `s.measurement_time >= $1 AND s.measurement_time < $2` where `$1 =
min(starts)` and `$2 = max(ends)`. -/
def batchWhere (ps : List ActivePeriod) (s : SensorRow) : Bool :=
  (ps.any fun u => singleWhere u s) &&
  minStarts ps ≤ s.measurement_time &&
  s.measurement_time < maxEnds ps

/-- Rows fetched by the per-unit query of `query_single_period` for period
`u` against database `db`. -/
def fetchSingle (db : DB) (u : ActivePeriod) : List (SensorRow × PeriodRow) :=
  (joinRows db).filter fun sp => singleWhere u sp.1

/-- Rows fetched by the batched disjunctive query of `query_batch_periods`
for the group `ps` against database `db`. -/
def fetchBatch (db : DB) (ps : List ActivePeriod) : List (SensorRow × PeriodRow) :=
  (joinRows db).filter fun sp => batchWhere ps sp.1

/-- Embeds `query_single_period` (source lines 148-210).  The outcome of
`conn.fetch` — either the row list or the exception message — is passed in as
`fetch`, and `dur` is the measured elapsed time; the function mirrors the
`try/except` that turns either into a `QueryResult`. -/
def query_single_period (u : ActivePeriod)
    (fetch : Except String (List (SensorRow × PeriodRow))) (dur : ℚ) :
    QueryResult :=
  match fetch with
  | .ok rows =>
      { period := some u, row_count := rows.length, duration_ms := dur,
        success := true, error := none }
  | .error e =>
      { period := some u, row_count := 0, duration_ms := dur,
        success := false, error := some e }

/-- `query_single_period` on a live database that does not fail: the fetch
returns exactly the rows matching the per-unit query. -/
def query_single_period_pure (db : DB) (u : ActivePeriod) : QueryResult :=
  query_single_period u (.ok (fetchSingle db u)) 0

/-- Embeds `query_batch_periods` (source lines 212-294).  An empty group
short-circuits (lines 225-231) to a successful zero-row outcome before any
query is built or a connection acquired; otherwise the fetch outcome `fetch`
and elapsed time `dur` are turned into a `QueryResult` as in the source. -/
def query_batch_periods (ps : List ActivePeriod)
    (fetch : Except String (List (SensorRow × PeriodRow))) (dur : ℚ) :
    QueryResult :=
  if ps.isEmpty then
    { period := none, row_count := 0, duration_ms := 0,
      success := true, error := none }
  else
    match fetch with
    | .ok rows =>
        { period := none, row_count := rows.length, duration_ms := dur,
          success := true, error := none }
    | .error e =>
        { period := none, row_count := 0, duration_ms := dur,
          success := false, error := some e }

/-- `query_batch_periods` together with its connection/query trace: the
second component lists the queries actually executed (one per acquired
connection).  The empty-group branch returns before `pool.acquire` (source
lines 225-231), so its trace is empty. -/
def query_batch_periods_run (ps : List ActivePeriod)
    (fetch : Except String (List (SensorRow × PeriodRow))) (dur : ℚ) :
    QueryResult × List (List ActivePeriod) :=
  if ps.isEmpty then
    ({ period := none, row_count := 0, duration_ms := 0,
       success := true, error := none }, [])
  else (query_batch_periods ps fetch dur, [ps])

/-- `query_batch_periods` on a live database that does not fail. -/
def query_batch_periods_pure (db : DB) (ps : List ActivePeriod) : QueryResult :=
  query_batch_periods ps (.ok (fetchBatch db ps)) 0

/-- The batch splitting of `process_all_periods_parallel` (source lines
314-317): `[periods[i:i + batch_size] for i in range(0, len(periods),
batch_size)]`, i.e. successive slices of length `bs` (the source requires
`bs ≥ 1`; Python's `range` raises on step 0). -/
def chunksOf (bs : Nat) : List ActivePeriod → List (List ActivePeriod)
  | [] => []
  | a :: l => (a :: l.take (bs - 1)) :: chunksOf bs (l.drop (bs - 1))
termination_by l => l.length
decreasing_by
  simp only [List.length_drop, List.length_cons]
  omega

/-! ### The query text built by the batched strategy (source lines 233-262)

`query_batch_periods` builds the disjunctive clauses with f-string
interpolation: `f"(s.sensor_id = {p.sensor_id} AND s.measurement_time >=
'{p.start_time.isoformat()}' AND s.measurement_time <
'{p.end_time.isoformat()}')"`, joins them with `' OR '`, and splices the
result into the query text; only the global min/max bound travels as the
bound parameters `$1`/`$2`.  `isoformat()` is modelled as the decimal
rendering of the integer timestamp. -/

/-- The single-quote character, as it appears around the interpolated
timestamps in the f-string. -/
def quoteMark : String := String.singleton (Char.ofNat 39)

/-- One disjunct of the `or_conditions` list (source lines 236-240). -/
def orCondition (p : ActivePeriod) : String :=
  "(s.sensor_id = " ++ toString p.sensor_id ++
  " AND s.measurement_time >= " ++ quoteMark ++ toString p.start_time ++ quoteMark ++
  " AND s.measurement_time < " ++ quoteMark ++ toString p.end_time ++ quoteMark ++ ")"

/-- The WHERE clause of the batched query text (source line 258):
`({' OR '.join(or_conditions)})` — the unit values are interpolated into the
text, not bound. -/
def batchWhereText (ps : List ActivePeriod) : String :=
  "(" ++ String.intercalate " OR " (ps.map orCondition) ++ ")"

/-- The full batched query text (source lines 246-262, whitespace
normalized): static skeleton plus the interpolated disjunction; `$1`/`$2` are
the only bound parameters. -/
def batchQueryText (ps : List ActivePeriod) : String :=
  "SELECT s.sensor_id, s.measurement_time, s.measurement_value, " ++
  "p.start_time, p.end_time " ++
  "FROM bench.sensor_data s JOIN bench.active_periods p " ++
  "ON s.sensor_id = p.sensor_id " ++
  "AND s.measurement_time >= p.start_time " ++
  "AND s.measurement_time < p.end_time " ++
  "WHERE " ++ batchWhereText ps ++
  " AND s.measurement_time >= $1 AND s.measurement_time < $2 " ++
  "AND p.status = " ++ quoteMark ++ "DONE" ++ quoteMark

/-! ### The bounded dispatcher (source lines 296-369)

`process_all_periods_parallel` builds one task per period (or per batch),
wraps each in `bounded_task` (which runs it under the semaphore), and awaits
`asyncio.gather(..., return_exceptions=True)`.  `gather` writes each task's
result — the returned `QueryResult` or the escaped exception — into the slot
matching the task's input position, in whatever order the tasks complete, and
returns the slots in input order.  The completion order is modelled as an
explicit schedule `σ` (the task indices in completion order); the result of
task `i` is given by the oracle as an `Except String QueryResult`. -/

/-- Slot-filling semantics of `asyncio.gather`: process completions in the
order given by `σ`, writing task `j`'s result into slot `j`. -/
def fillSlots (res : Nat → Except String QueryResult) (σ : List Nat)
    (s : Nat → Option (Except String QueryResult)) :
    Nat → Option (Except String QueryResult) :=
  σ.foldl (fun st j => Function.update st j (some (res j))) s

/-- `asyncio.gather` with `return_exceptions=True` over `n` tasks whose
results are `res` and whose completion order is `σ`: fill the slots, then
read them back in input order. -/
def gather (res : Nat → Except String QueryResult) (n : Nat) (σ : List Nat) :
    List (Except String QueryResult) :=
  (List.range n).map fun i =>
    (fillSlots res σ (fun _ => none) i).getD (Except.error "unfilled")

/-- `σ` is a possible completion schedule for `n` tasks: every task
completes. -/
def validSchedule (n : Nat) (σ : List Nat) : Prop :=
  ∀ i, i < n → i ∈ σ

instance validScheduleDecidable (n : Nat) (σ : List Nat) :
    Decidable (validSchedule n σ) :=
  inferInstanceAs (Decidable (∀ i, i < n → i ∈ σ))

/-- The exception-conversion loop of the dispatcher (source lines 353-367):
a result that is an exception becomes a failed `QueryResult` with
`error=str(result)`; a `QueryResult` passes through. -/
def handleResult : Except String QueryResult → QueryResult
  | .ok r => r
  | .error e =>
      { period := none, row_count := 0, duration_ms := 0,
        success := false, error := some e }

/-- The dispatcher core: gather the task results under schedule `σ`, then
convert exceptions (source lines 347-369). -/
def dispatch (tres : List (Except String QueryResult)) (σ : List Nat) :
    List QueryResult :=
  (gather (fun i => tres.getD i (Except.error "")) tres.length σ).map
    handleResult

/-- Embeds `process_all_periods_parallel` (source lines 296-369).  The task
list is one `query_single_period` per period, or one `query_batch_periods`
per batch of `batch_size` (source lines 312-338); awaiting task `i` yields
`execSingle`/`execBatch` at that task's input — a `QueryResult`, or the
exception that escaped it.  `σ` is the completion schedule. -/
def process_all_periods_parallel
    (execSingle : ActivePeriod → Except String QueryResult)
    (execBatch : List ActivePeriod → Except String QueryResult)
    (use_batching : Bool) (batch_size : Nat) (periods : List ActivePeriod)
    (σ : List Nat) : List QueryResult :=
  let tres :=
    if use_batching then (chunksOf batch_size periods).map execBatch
    else periods.map execSingle
  dispatch tres σ

/-! ### The semaphore bound (source lines 340-350)

`bounded_task` acquires the `asyncio.Semaphore(max_connections)` slot, awaits
the wrapped coroutine (which starts executing only then — the bare coroutine
objects built on lines 324-338 do not run until awaited), and releases the
slot when the await finishes.  The possible interleavings are traces of a
state machine: `start i` enters the `async with semaphore` block (enabled
only while a slot is free), `finish i` leaves it. -/

/-- State of the semaphore-bounded run: free slots and the indices of the
tasks currently executing inside `bounded_task`. -/
structure SemState where
  avail : Nat
  running : List Nat
deriving DecidableEq, Repr

/-- One scheduler event: a task starts executing (acquiring a slot) or
finishes (releasing it). -/
inductive SemEvent where
  | start (i : Nat)
  | finish (i : Nat)
deriving DecidableEq, Repr

/-- One step of the semaphore state machine. `start i` is enabled only when a
slot is free — `semaphore.acquire` blocks otherwise — and `finish i` only for
a running task. -/
def semStep (s : SemState) : SemEvent → Option SemState
  | .start i => if 0 < s.avail then some ⟨s.avail - 1, i :: s.running⟩ else none
  | .finish i =>
      if i ∈ s.running then some ⟨s.avail + 1, s.running.erase i⟩ else none

/-- Run a sequence of events from a state; `none` when an event is not
enabled. -/
def runTrace (s : SemState) : List SemEvent → Option SemState
  | [] => some s
  | e :: es =>
      match semStep s e with
      | some s2 => runTrace s2 es
      | none => none

/-- The initial state of a dispatch run with
`asyncio.Semaphore(max_connections)` (source line 341): all slots free,
nothing running. -/
def initSemState (max_connections : Nat) : SemState :=
  ⟨max_connections, []⟩

/-! ### The aggregator `print_summary` (source lines 371-396) -/

/-- The statistics `print_summary` computes before printing. -/
structure Summary where
  total : Nat
  successful : Nat
  failed : Nat
  total_rows : Nat
  total_duration : ℚ
  avg_duration : ℚ
  min_duration : Option ℚ
  max_duration : Option ℚ
deriving DecidableEq, Repr

/-- Embeds `print_summary` (source lines 371-396) as the pure computation of
the printed statistics: totals over successful outcomes only, average guarded
by `if successful else 0`, min/max computed only under `if successful:`
(modelled as `none` when skipped). -/
def print_summary (results : List QueryResult) : Summary :=
  let successful := results.filter fun r => r.success
  let failed := results.filter fun r => !r.success
  let total_rows := (successful.map fun r => r.row_count).sum
  let total_duration := (successful.map fun r => r.duration_ms).sum
  let avg_duration :=
    if successful.isEmpty then 0 else total_duration / successful.length
  let min_duration :=
    match successful with
    | [] => none
    | r :: rest =>
        some (rest.foldl (fun a v => min a v.duration_ms) r.duration_ms)
  let max_duration :=
    match successful with
    | [] => none
    | r :: rest =>
        some (rest.foldl (fun a v => max a v.duration_ms) r.duration_ms)
  { total := results.length, successful := successful.length,
    failed := failed.length, total_rows := total_rows,
    total_duration := total_duration, avg_duration := avg_duration,
    min_duration := min_duration, max_duration := max_duration }

/-- A placeholder outcome used as the `getD` default in statements. -/
def dummyOutcome : QueryResult :=
  { period := none, row_count := 0, duration_ms := 0,
    success := true, error := none }

/-- Sum of `row_count` over the successful outcomes of a dispatch run, the
quantity compared across the two strategies. -/
def successfulRowSum (rs : List QueryResult) : Nat :=
  ((rs.filter fun r => r.success).map fun r => r.row_count).sum

/-! ## Helper lemmas about the gather/dispatch model -/

/-- A slot not named in the completion schedule keeps its value. -/
lemma fillSlots_not_mem (res : Nat → Except String QueryResult)
    (σ : List Nat) (s : Nat → Option (Except String QueryResult)) (i : Nat)
    (h : i ∉ σ) : fillSlots res σ s i = s i := by
  induction σ generalizing s with
  | nil => rfl
  | cons j rest ih =>
      have hij : i ≠ j := fun hij => h (hij ▸ List.mem_cons_self j rest)
      have hrest : i ∉ rest := fun hr => h (List.mem_cons_of_mem j hr)
      simp only [fillSlots, List.foldl_cons] at *
      rw [ih _ hrest, Function.update_noteq hij]

/-- A slot named in the completion schedule ends up holding its task's
result. -/
lemma fillSlots_mem (res : Nat → Except String QueryResult)
    (σ : List Nat) (s : Nat → Option (Except String QueryResult)) (i : Nat)
    (h : i ∈ σ) : fillSlots res σ s i = some (res i) := by
  induction σ generalizing s with
  | nil => cases h
  | cons j rest ih =>
      by_cases hr : i ∈ rest
      · simp only [fillSlots, List.foldl_cons] at *
        exact ih _ hr
      · have hij : i = j := by
          rcases List.mem_cons.mp h with h1 | h2
          · exact h1
          · exact absurd h2 hr
        subst hij
        have hns := fillSlots_not_mem res rest
          (Function.update s i (some (res i))) i hr
        simp only [fillSlots, List.foldl_cons] at *
        rw [hns, Function.update_same]

/-- Under any schedule in which every task completes, `gather` returns the
task results in input order. -/
lemma gather_eq (res : Nat → Except String QueryResult) (n : Nat)
    (σ : List Nat) (h : validSchedule n σ) :
    gather res n σ = (List.range n).map res := by
  unfold gather
  refine List.map_congr_left fun i hi => ?_
  rw [fillSlots_mem _ _ _ _ (h i (List.mem_range.mp hi))]
  rfl

/-- Reading a list back by indices recovers the list. -/
lemma map_getD_range (l : List (Except String QueryResult))
    (d : Except String QueryResult) :
    (List.range l.length).map (fun i => l.getD i d) = l := by
  induction l with
  | nil => rfl
  | cons a t ih =>
      simp only [List.length_cons, List.range_succ_eq_map, List.map_cons,
        List.getD_cons_zero, List.map_map]
      refine congrArg (a :: ·) ?_
      calc (List.range t.length).map ((fun i => (a :: t).getD i d) ∘ (· + 1))
          = (List.range t.length).map (fun i => t.getD i d) := by
            refine List.map_congr_left fun i _ => ?_
            rfl
        _ = t := ih

/-- Under any complete schedule, the dispatcher output is exactly the
exception-conversion map over the task results, in input order. -/
lemma dispatch_eq (tres : List (Except String QueryResult)) (σ : List Nat)
    (h : validSchedule tres.length σ) :
    dispatch tres σ = tres.map handleResult := by
  unfold dispatch
  rw [gather_eq _ _ _ h, map_getD_range]

/-- The dispatcher always returns one outcome per task. -/
lemma dispatch_length (tres : List (Except String QueryResult))
    (σ : List Nat) : (dispatch tres σ).length = tres.length := by
  unfold dispatch gather
  rw [List.length_map, List.length_map, List.length_range]

/-- `getD` commutes with `map handleResult` for the defaults used here. -/
lemma getD_map_handleResult (l : List (Except String QueryResult)) (i : Nat) :
    (l.map handleResult).getD i dummyOutcome =
      handleResult (l.getD i (Except.ok dummyOutcome)) := by
  induction l generalizing i with
  | nil => cases i <;> rfl
  | cons a t ih =>
      cases i with
      | zero => rfl
      | succ n =>
          simp only [List.map_cons, List.getD_cons_succ]
          exact ih n

/-! ## Helper lemmas about batch splitting -/

/-- Fuel-indexed form: concatenating the batches recovers the period list. -/
lemma chunksOf_join_aux (bs n : Nat) :
    ∀ l : List ActivePeriod, l.length ≤ n → (chunksOf bs l).flatten = l := by
  induction n with
  | zero =>
      intro l h
      have : l = [] := List.eq_nil_of_length_eq_zero (Nat.le_zero.mp h)
      subst this
      simp [chunksOf]
  | succ n ih =>
      intro l h
      cases l with
      | nil => simp [chunksOf]
      | cons a t =>
          rw [chunksOf]
          have hlen : (t.drop (bs - 1)).length ≤ n := by
            simp only [List.length_drop]
            simp only [List.length_cons] at h
            omega
          simp only [List.flatten_cons, ih _ hlen, List.cons_append,
            List.take_append_drop]

/-- Concatenating the batches recovers the period list in order. -/
lemma chunksOf_join (bs : Nat) (l : List ActivePeriod) :
    (chunksOf bs l).flatten = l :=
  chunksOf_join_aux bs l.length l le_rfl

/-- Fuel-indexed form of the batch-count formula. -/
lemma chunksOf_length_aux (bs n : Nat) (hbs : 0 < bs) :
    ∀ l : List ActivePeriod, l.length ≤ n →
      (chunksOf bs l).length = (l.length + bs - 1) / bs := by
  induction n with
  | zero =>
      intro l h
      have : l = [] := List.eq_nil_of_length_eq_zero (Nat.le_zero.mp h)
      subst this
      simp [chunksOf, Nat.div_eq_of_lt, Nat.sub_lt hbs]
  | succ n ih =>
      intro l h
      cases l with
      | nil => simp [chunksOf, Nat.div_eq_of_lt, Nat.sub_lt hbs]
      | cons a t =>
          rw [chunksOf]
          have hlen : (t.drop (bs - 1)).length ≤ n := by
            simp only [List.length_drop]
            simp only [List.length_cons] at h
            omega
          rw [List.length_cons, ih _ hlen]
          simp only [List.length_drop, List.length_cons]
          rcases Nat.lt_or_ge t.length (bs - 1) with hc | hc
          · have h1 : t.length - (bs - 1) = 0 := by omega
            have h2 : (t.length + 1 + bs - 1) / bs = 1 := by
              rw [Nat.div_eq_of_lt_le] <;> omega
            rw [h1, h2]
            simp [Nat.div_eq_of_lt, Nat.sub_lt hbs]
          · have h1 : t.length - (bs - 1) + bs - 1 = t.length := by omega
            have h2 : t.length + 1 + bs - 1 = t.length + bs := by omega
            rw [h1, h2, Nat.add_div_right _ hbs]

/-- Number of batches: `ceil(len / bs)`, written `(len + bs - 1) / bs`. -/
lemma chunksOf_length (bs : Nat) (hbs : 0 < bs) (l : List ActivePeriod) :
    (chunksOf bs l).length = (l.length + bs - 1) / bs :=
  chunksOf_length_aux bs l.length hbs l le_rfl

/-- Fuel-indexed form: every batch is a sublist of the input and non-empty. -/
lemma chunksOf_mem_aux (bs n : Nat) :
    ∀ l : List ActivePeriod, l.length ≤ n →
      ∀ c ∈ chunksOf bs l, c.Sublist l ∧ c ≠ [] := by
  induction n with
  | zero =>
      intro l h
      have : l = [] := List.eq_nil_of_length_eq_zero (Nat.le_zero.mp h)
      subst this
      intro c hc
      simp [chunksOf] at hc
  | succ n ih =>
      intro l h
      cases l with
      | nil => intro c hc; simp [chunksOf] at hc
      | cons a t =>
          rw [chunksOf]
          intro c hc
          have hlen : (t.drop (bs - 1)).length ≤ n := by
            simp only [List.length_drop]
            simp only [List.length_cons] at h
            omega
          rcases List.mem_cons.mp hc with h1 | h2
          · subst h1
            refine ⟨?_, by simp⟩
            have : (a :: t.take (bs - 1)) = (a :: t).take (bs - 1 + 1) := by
              simp [List.take_cons]
            rw [this]
            exact List.take_sublist _ _
          · rcases ih _ hlen c h2 with ⟨hs, hne⟩
            exact ⟨hs.trans ((List.drop_sublist _ _).trans
              (List.sublist_cons_self a t)), hne⟩

/-! ## Helper lemmas about the global time bound and disjointness -/

/-- A left fold by `min` over start times never exceeds its seed. -/
lemma foldl_min_le_init (l : List ActivePeriod) (a : Int) :
    l.foldl (fun b v => min b v.start_time) a ≤ a := by
  induction l generalizing a with
  | nil => exact le_rfl
  | cons v l ih =>
      exact le_trans (ih (min a v.start_time)) (min_le_left _ _)

/-- A left fold by `min` over start times bounds every member's start. -/
lemma foldl_min_le_mem (l : List ActivePeriod) (a : Int) (u : ActivePeriod)
    (hu : u ∈ l) : l.foldl (fun b v => min b v.start_time) a ≤ u.start_time := by
  induction l generalizing a with
  | nil => cases hu
  | cons v l ih =>
      rcases List.mem_cons.mp hu with h1 | h2
      · subst h1
        exact le_trans (foldl_min_le_init l _) (min_le_right _ _)
      · exact ih _ h2

/-- A left fold by `max` over end times is at least its seed. -/
lemma init_le_foldl_max (l : List ActivePeriod) (a : Int) :
    a ≤ l.foldl (fun b v => max b v.end_time) a := by
  induction l generalizing a with
  | nil => exact le_rfl
  | cons v l ih =>
      exact le_trans (le_max_left _ _) (ih (max a v.end_time))

/-- A left fold by `max` over end times dominates every member's end. -/
lemma mem_le_foldl_max (l : List ActivePeriod) (a : Int) (u : ActivePeriod)
    (hu : u ∈ l) : u.end_time ≤ l.foldl (fun b v => max b v.end_time) a := by
  induction l generalizing a with
  | nil => cases hu
  | cons v l ih =>
      rcases List.mem_cons.mp hu with h1 | h2
      · subst h1
        exact le_trans (le_max_right _ _) (init_le_foldl_max l _)
      · exact ih _ h2

/-- `min(starts)` bounds every member's start time from below. -/
lemma minStarts_le (ps : List ActivePeriod) (u : ActivePeriod) (hu : u ∈ ps) :
    minStarts ps ≤ u.start_time := by
  cases ps with
  | nil => cases hu
  | cons v t =>
      rcases List.mem_cons.mp hu with h1 | h2
      · subst h1
        exact foldl_min_le_init t _
      · exact foldl_min_le_mem t _ _ h2

/-- `max(ends)` dominates every member's end time. -/
lemma le_maxEnds (ps : List ActivePeriod) (u : ActivePeriod) (hu : u ∈ ps) :
    u.end_time ≤ maxEnds ps := by
  cases ps with
  | nil => cases hu
  | cons v t =>
      rcases List.mem_cons.mp hu with h1 | h2
      · subst h1
        exact init_le_foldl_max t _
      · exact mem_le_foldl_max t _ _ h2

/-- A timestamp inside some member's interval lies inside the global bound. -/
lemma global_bound_of_mem (ps : List ActivePeriod) (u : ActivePeriod)
    (hu : u ∈ ps) (t : Int) (h1 : u.start_time ≤ t) (h2 : t < u.end_time) :
    minStarts ps ≤ t ∧ t < maxEnds ps :=
  ⟨le_trans (minStarts_le ps u hu) h1, lt_of_lt_of_le h2 (le_maxEnds ps u hu)⟩

/-- For a non-empty group the conjunction of the disjunctive predicate with
the global min/max bound equals the disjunctive predicate alone. -/
lemma batchWhere_eq_any (ps : List ActivePeriod) (s : SensorRow) :
    batchWhere ps s = (ps.any fun u => singleWhere u s) := by
  unfold batchWhere
  cases hany : ps.any fun u => singleWhere u s with
  | false => simp
  | true =>
      rcases List.any_eq_true.mp hany with ⟨u, hu, hw⟩
      have hw' := hw
      unfold singleWhere at hw'
      simp only [Bool.and_eq_true, decide_eq_true_eq, beq_iff_eq] at hw'
      rcases global_bound_of_mem ps u hu s.measurement_time hw'.1.2 hw'.2
        with ⟨hb1, hb2⟩
      simp [hb1, hb2]

/-- Splitting a count over a disjunction of pointwise-disjoint predicates. -/
lemma length_filter_or (l : List (SensorRow × PeriodRow))
    (p q : SensorRow × PeriodRow → Bool)
    (h : ∀ x ∈ l, ¬(p x = true ∧ q x = true)) :
    (l.filter fun x => p x || q x).length
      = (l.filter p).length + (l.filter q).length := by
  induction l with
  | nil => rfl
  | cons a t ih =>
      have ht : ∀ x ∈ t, ¬(p x = true ∧ q x = true) := fun x hx =>
        h x (List.mem_cons_of_mem a hx)
      have ha := h a (List.mem_cons_self a t)
      cases hp : p a with
      | true =>
          have hq : q a = false := by
            cases hq : q a with
            | true => exact absurd ⟨hp, hq⟩ ha
            | false => rfl
          simp [List.filter_cons, hp, hq, ih ht]
          omega
      | false =>
          cases hq : q a with
          | true =>
              simp [List.filter_cons, hp, hq, ih ht]
              omega
          | false => simp [List.filter_cons, hp, hq, ih ht]

/-- Counting rows matched by an `any` over pairwise-disjoint per-unit
predicates equals the sum of the per-unit counts. -/
lemma length_filter_any (l : List (SensorRow × PeriodRow))
    (qs : List ActivePeriod)
    (hdisj : qs.Pairwise fun u v =>
      ∀ s : SensorRow, ¬(singleWhere u s = true ∧ singleWhere v s = true)) :
    (l.filter fun sp => qs.any fun u => singleWhere u sp.1).length
      = (qs.map fun u =>
          (l.filter fun sp => singleWhere u sp.1).length).sum := by
  induction qs with
  | nil => simp
  | cons u qs ih =>
      rcases List.pairwise_cons.mp hdisj with ⟨hhead, htail⟩
      have hsplit : ∀ sp ∈ l,
          ¬(singleWhere u sp.1 = true ∧
            (qs.any fun v => singleWhere v sp.1) = true) := by
        intro sp _ ⟨h1, h2⟩
        rcases List.any_eq_true.mp h2 with ⟨v, hv, hw⟩
        exact hhead v hv sp.1 ⟨h1, hw⟩
      calc (l.filter fun sp => (u :: qs).any fun w => singleWhere w sp.1).length
          = (l.filter fun sp =>
              singleWhere u sp.1 ||
                (qs.any fun w => singleWhere w sp.1)).length := by
            simp [List.any_cons]
        _ = (l.filter fun sp => singleWhere u sp.1).length +
              (l.filter fun sp => (qs.any fun w => singleWhere w sp.1)).length :=
            length_filter_or l _ _ hsplit
        _ = (l.filter fun sp => singleWhere u sp.1).length +
              (qs.map fun w =>
                (l.filter fun sp => singleWhere w sp.1).length).sum := by
            rw [ih htail]
        _ = ((u :: qs).map fun w =>
              (l.filter fun sp => singleWhere w sp.1).length).sum := by
            simp

/-- Interval non-overlap on a shared entity makes the per-unit WHERE
predicates pointwise disjoint. -/
lemma singleWhere_disjoint_of_no_overlap (u v : ActivePeriod)
    (h : u.sensor_id = v.sensor_id →
      ∀ t : Int, ¬(u.start_time ≤ t ∧ t < u.end_time ∧
        v.start_time ≤ t ∧ t < v.end_time)) :
    ∀ s : SensorRow, ¬(singleWhere u s = true ∧ singleWhere v s = true) := by
  intro s ⟨h1, h2⟩
  unfold singleWhere at h1 h2
  simp only [Bool.and_eq_true, decide_eq_true_eq, beq_iff_eq] at h1 h2
  exact h (h1.1.1 ▸ h2.1.1) s.measurement_time
    ⟨h1.1.2, h1.2, h2.1.2, h2.2⟩

/-- The batched row count of one non-empty group with pairwise
non-overlapping units is the sum of its per-unit row counts. -/
lemma fetchBatch_length_eq_sum (db : DB) (c : List ActivePeriod)
    (hdisj : c.Pairwise fun u v =>
      ∀ s : SensorRow, ¬(singleWhere u s = true ∧ singleWhere v s = true)) :
    (fetchBatch db c).length
      = (c.map fun u => (fetchSingle db u).length).sum := by
  unfold fetchBatch fetchSingle
  calc ((joinRows db).filter fun sp => batchWhere c sp.1).length
      = ((joinRows db).filter fun sp =>
          (c.any fun u => singleWhere u sp.1)).length := by
        refine congrArg List.length (List.filter_congr fun sp _ => ?_)
        exact batchWhere_eq_any c sp.1
    _ = (c.map fun u =>
          ((joinRows db).filter fun sp => singleWhere u sp.1).length).sum :=
        length_filter_any _ _ hdisj

/-! ## Helper lemmas about the semaphore state machine -/

/-- The counting invariant of the semaphore run: free slots plus running
tasks always total the semaphore capacity. -/
lemma runTrace_invariant (N : Nat) (events : List SemEvent) :
    ∀ s0 s : SemState, s0.avail + s0.running.length = N →
      runTrace s0 events = some s → s.avail + s.running.length = N := by
  induction events with
  | nil =>
      intro s0 s h0 hr
      cases hr
      exact h0
  | cons e es ih =>
      intro s0 s h0 hr
      unfold runTrace at hr
      cases e with
      | start i =>
          by_cases ha : 0 < s0.avail
          · simp only [semStep, ha, if_pos] at hr
            refine ih _ s ?_ hr
            simp only [List.length_cons]
            omega
          · simp [semStep, ha] at hr
      | finish i =>
          by_cases hm : i ∈ s0.running
          · simp only [semStep, hm, if_pos] at hr
            refine ih _ s ?_ hr
            have hlen := List.length_erase_of_mem hm
            have hpos : 0 < s0.running.length := List.length_pos_of_mem hm
            simp only [hlen]
            omega
          · simp [semStep, hm] at hr

/-! ## Claim theorems -/

/-- C1: for every ordered task list given to the dispatcher, any exception
raised by a task — including one escaping task-local handling — is converted
into a failed outcome at that task's position, and the dispatcher returns a
complete outcome list (one outcome per task) instead of propagating the
exception. -/
theorem dispatcher_absorbs_task_exceptions
    (tres : List (Except String QueryResult)) (σ : List Nat)
    (h : validSchedule tres.length σ) :
    (dispatch tres σ).length = tres.length ∧
    ∀ i e, tres.getD i (Except.ok dummyOutcome) = Except.error e →
      (dispatch tres σ).getD i dummyOutcome =
        { period := none, row_count := 0, duration_ms := 0,
          success := false, error := some e } := by
  refine ⟨dispatch_length tres σ, ?_⟩
  intro i e he
  rw [dispatch_eq tres σ h, getD_map_handleResult, he]
  rfl

/-- Witness for C1 at a concrete input: two tasks, the second raising, under
an out-of-order completion schedule. -/
theorem dispatcher_absorbs_task_exceptions_witness :
    (dispatch [Except.ok dummyOutcome, Except.error "boom"] [1, 0]).length = 2 ∧
    (dispatch [Except.ok dummyOutcome, Except.error "boom"] [1, 0]).getD 1
        dummyOutcome =
      { period := none, row_count := 0, duration_ms := 0,
        success := false, error := some "boom" } := by
  have h := dispatcher_absorbs_task_exceptions
    [Except.ok dummyOutcome, Except.error "boom"] [1, 0] (by decide)
  exact ⟨h.1, h.2 1 "boom" (by rfl)⟩

/-- C2: during a dispatch run, at no instant do more than `max_connections`
tasks hold the semaphore — in every state reachable by a trace of
start/finish events from the initial state, the number of concurrently
executing tasks is at most the semaphore capacity. -/
theorem semaphore_concurrency_ceiling (max_connections : Nat)
    (events : List SemEvent) (s : SemState)
    (h : runTrace (initSemState max_connections) events = some s) :
    s.running.length ≤ max_connections := by
  have hinv := runTrace_invariant max_connections events
    (initSemState max_connections) s (by simp [initSemState]) h
  omega

/-- Witness for C2 at a concrete input: capacity 2, a trace that saturates
the semaphore, releases one slot, and starts a third task. -/
theorem semaphore_concurrency_ceiling_witness :
    (SemState.mk 0 [2, 1]).running.length ≤ 2 :=
  semaphore_concurrency_ceiling 2
    [SemEvent.start 0, SemEvent.start 1, SemEvent.finish 0, SemEvent.start 2]
    (SemState.mk 0 [2, 1]) (by rfl)

set_option maxRecDepth 8192 in
/-- C4 (counterexample): the batched strategy interpolates `sensor_id`,
`start_time` and `end_time` directly into the disjunctive query text — two
equal-size groups differing only in those values produce different SQL text,
so the values are not confined to bound parameters. -/
theorem batch_query_text_depends_on_values :
    batchQueryText [{ sensor_id := 1, start_time := 0, end_time := 10 }]
      ≠ batchQueryText [{ sensor_id := 2, start_time := 0, end_time := 10 }] := by
  decide

/-- C6: for every non-empty group, a timestamp inside some member's interval
lies inside the group-wide `[min(starts), max(ends))` bound, so conjoining
the global bound to the disjunctive predicate never changes it. -/
theorem batch_global_bound_redundant (ps : List ActivePeriod)
    (_hne : ps ≠ []) :
    (∀ u ∈ ps, ∀ t : Int, u.start_time ≤ t → t < u.end_time →
      minStarts ps ≤ t ∧ t < maxEnds ps) ∧
    (∀ s : SensorRow, batchWhere ps s = (ps.any fun u => singleWhere u s)) := by
  refine ⟨fun u hu t h1 h2 => global_bound_of_mem ps u hu t h1 h2,
    fun s => batchWhere_eq_any ps s⟩

/-- Witness for C6 at a concrete input: the singleton group `[1, [0, 10)]`
and the timestamp 5. -/
theorem batch_global_bound_redundant_witness :
    minStarts [{ sensor_id := 1, start_time := 0, end_time := 10 }] ≤ 5 ∧
    (5 : Int) < maxEnds [{ sensor_id := 1, start_time := 0, end_time := 10 }] :=
  (batch_global_bound_redundant
      [{ sensor_id := 1, start_time := 0, end_time := 10 }] (by decide)).1
    { sensor_id := 1, start_time := 0, end_time := 10 } (by decide)
    5 (by decide) (by decide)

/-- C7: every outcome produced by `query_single_period`, by
`query_batch_periods`, or by the dispatcher's exception-conversion path has
`success = false` exactly when its `error` field is present; the converted
exception carries the exception's message. -/
theorem outcome_success_iff_error_present :
    (∀ (u : ActivePeriod) (fetch : Except String (List (SensorRow × PeriodRow)))
        (dur : ℚ),
      ((query_single_period u fetch dur).success = false ↔
        (query_single_period u fetch dur).error.isSome = true)) ∧
    (∀ (ps : List ActivePeriod)
        (fetch : Except String (List (SensorRow × PeriodRow))) (dur : ℚ),
      ((query_batch_periods ps fetch dur).success = false ↔
        (query_batch_periods ps fetch dur).error.isSome = true)) ∧
    (∀ e : String,
      (handleResult (Except.error e)).success = false ∧
      (handleResult (Except.error e)).error = some e) := by
  refine ⟨?_, ?_, ?_⟩
  · intro u fetch dur
    cases fetch <;> simp [query_single_period]
  · intro ps fetch dur
    by_cases hps : ps.isEmpty <;> cases fetch <;>
      simp [query_batch_periods, hps]
  · intro e
    exact ⟨rfl, rfl⟩

/-- C10: an empty group short-circuits `query_batch_periods` to a successful
outcome with zero rows, zero duration and no error, executing no query and
acquiring no connection (empty execution trace, independent of the fetch
oracle). -/
theorem query_batch_periods_empty_group
    (fetch : Except String (List (SensorRow × PeriodRow))) (dur : ℚ) :
    query_batch_periods_run [] fetch dur =
      ({ period := none, row_count := 0, duration_ms := 0,
         success := true, error := none }, []) := rfl

/-- Selecting the per-unit strategy builds one task per period. -/
lemma process_false_eq (execSingle : ActivePeriod → Except String QueryResult)
    (execBatch : List ActivePeriod → Except String QueryResult)
    (bs : Nat) (ps : List ActivePeriod) (σ : List Nat) :
    process_all_periods_parallel execSingle execBatch false bs ps σ
      = dispatch (ps.map execSingle) σ := rfl

/-- Selecting the batched strategy builds one task per batch. -/
lemma process_true_eq (execSingle : ActivePeriod → Except String QueryResult)
    (execBatch : List ActivePeriod → Except String QueryResult)
    (bs : Nat) (ps : List ActivePeriod) (σ : List Nat) :
    process_all_periods_parallel execSingle execBatch true bs ps σ
      = dispatch ((chunksOf bs ps).map execBatch) σ := rfl

/-- C3: under any completion schedule, the outcome list of
`process_all_periods_parallel` corresponds positionally to the input tasks —
the i-th outcome comes from the i-th period in per-unit mode and from the
i-th batch in batched mode, independent of completion order. -/
theorem dispatcher_preserves_input_order
    (execSingle : ActivePeriod → Except String QueryResult)
    (execBatch : List ActivePeriod → Except String QueryResult)
    (bs : Nat) (ps : List ActivePeriod) (σ₁ σ₂ : List Nat)
    (h1 : validSchedule ps.length σ₁)
    (h2 : validSchedule (chunksOf bs ps).length σ₂) :
    process_all_periods_parallel execSingle execBatch false bs ps σ₁
        = ps.map (fun u => handleResult (execSingle u)) ∧
    process_all_periods_parallel execSingle execBatch true bs ps σ₂
        = (chunksOf bs ps).map (fun c => handleResult (execBatch c)) := by
  constructor
  · rw [process_false_eq,
      dispatch_eq _ _ (by rw [List.length_map]; exact h1), List.map_map]
    rfl
  · rw [process_true_eq,
      dispatch_eq _ _ (by rw [List.length_map]; exact h2), List.map_map]
    rfl

/-- Witness for C3 at a concrete input: two periods, batch size 1, and a
reversed completion schedule for the per-unit run. -/
theorem dispatcher_preserves_input_order_witness :
    process_all_periods_parallel (fun _ => Except.ok dummyOutcome)
        (fun _ => Except.error "g") false 1
        [{ sensor_id := 1, start_time := 0, end_time := 10 },
         { sensor_id := 2, start_time := 0, end_time := 10 }] [1, 0]
      = [dummyOutcome, dummyOutcome] ∧
    process_all_periods_parallel (fun _ => Except.ok dummyOutcome)
        (fun _ => Except.error "g") true 1
        [{ sensor_id := 1, start_time := 0, end_time := 10 },
         { sensor_id := 2, start_time := 0, end_time := 10 }] [1, 0]
      = [handleResult (Except.error "g"), handleResult (Except.error "g")] := by
  have h := dispatcher_preserves_input_order
    (fun _ => Except.ok dummyOutcome) (fun _ => Except.error "g") 1
    [{ sensor_id := 1, start_time := 0, end_time := 10 },
     { sensor_id := 2, start_time := 0, end_time := 10 }] [1, 0] [1, 0]
    (by decide) (by simp [chunksOf]; decide)
  refine ⟨h.1, ?_⟩
  rw [h.2]
  simp [chunksOf]

/-- C8: per-unit dispatch returns exactly `len(periods)` outcomes and
batched dispatch returns exactly `ceil(len(periods) / batch_size)` outcomes,
one per batch. -/
theorem dispatch_outcome_counts
    (execSingle : ActivePeriod → Except String QueryResult)
    (execBatch : List ActivePeriod → Except String QueryResult)
    (bs : Nat) (ps : List ActivePeriod) (σ₁ σ₂ : List Nat)
    (_hne : ps ≠ []) (hbs : 0 < bs) :
    (process_all_periods_parallel execSingle execBatch false bs ps σ₁).length
        = ps.length ∧
    (process_all_periods_parallel execSingle execBatch true bs ps σ₂).length
        = (ps.length + bs - 1) / bs := by
  constructor
  · rw [process_false_eq, dispatch_length, List.length_map]
  · rw [process_true_eq, dispatch_length, List.length_map,
      chunksOf_length bs hbs]

/-- Witness for C8 at a concrete input: three periods, batch size 2 — the
per-unit run yields 3 outcomes and the batched run 2. -/
theorem dispatch_outcome_counts_witness :
    (process_all_periods_parallel (fun _ => Except.ok dummyOutcome)
        (fun _ => Except.ok dummyOutcome) false 2
        [{ sensor_id := 1, start_time := 0, end_time := 10 },
         { sensor_id := 2, start_time := 0, end_time := 10 },
         { sensor_id := 3, start_time := 0, end_time := 10 }]
        [0, 1, 2]).length = 3 ∧
    (process_all_periods_parallel (fun _ => Except.ok dummyOutcome)
        (fun _ => Except.ok dummyOutcome) true 2
        [{ sensor_id := 1, start_time := 0, end_time := 10 },
         { sensor_id := 2, start_time := 0, end_time := 10 },
         { sensor_id := 3, start_time := 0, end_time := 10 }]
        [0, 1]).length = 2 :=
  dispatch_outcome_counts (fun _ => Except.ok dummyOutcome)
    (fun _ => Except.ok dummyOutcome) 2
    [{ sensor_id := 1, start_time := 0, end_time := 10 },
     { sensor_id := 2, start_time := 0, end_time := 10 },
     { sensor_id := 3, start_time := 0, end_time := 10 }]
    [0, 1, 2] [0, 1] (by decide) (by decide)

/-- C9: on a list in which every outcome failed, the aggregator reports zero
successes, zero total rows and zero average duration (the division is
guarded), skips min/max, and does not fail; and its row and duration totals
always range over successful outcomes only. -/
theorem print_summary_all_failed (results : List QueryResult)
    (h : ∀ r ∈ results, r.success = false) :
    (print_summary results).successful = 0 ∧
    (print_summary results).total_rows = 0 ∧
    (print_summary results).avg_duration = 0 ∧
    (print_summary results).total_duration = 0 ∧
    (print_summary results).min_duration = none ∧
    (print_summary results).max_duration = none ∧
    (print_summary results).failed = results.length ∧
    (∀ rs : List QueryResult,
      (print_summary rs).total_rows
          = ((rs.filter fun r => r.success).map fun r => r.row_count).sum ∧
      (print_summary rs).total_duration
          = ((rs.filter fun r => r.success).map fun r => r.duration_ms).sum) := by
  have hfil : results.filter (fun r => r.success) = [] := by
    rw [List.filter_eq_nil_iff]
    intro r hr
    simp [h r hr]
  have hfail : results.filter (fun r => !r.success) = results := by
    rw [List.filter_eq_self]
    intro r hr
    simp [h r hr]
  refine ⟨?_, ?_, ?_, ?_, ?_, ?_, ?_, fun rs => ⟨rfl, rfl⟩⟩ <;>
    simp [print_summary, hfil, hfail]

/-- Witness for C9 at a concrete input: a two-element all-failed outcome
list. -/
theorem print_summary_all_failed_witness :
    (print_summary
      [{ period := none, row_count := 0, duration_ms := 3,
         success := false, error := some "a" },
       { period := none, row_count := 0, duration_ms := 4,
         success := false, error := some "b" }]).successful = 0 ∧
    (print_summary
      [{ period := none, row_count := 0, duration_ms := 3,
         success := false, error := some "a" },
       { period := none, row_count := 0, duration_ms := 4,
         success := false, error := some "b" }]).avg_duration = 0 :=
  have h := print_summary_all_failed
    [{ period := none, row_count := 0, duration_ms := 3,
       success := false, error := some "a" },
     { period := none, row_count := 0, duration_ms := 4,
       success := false, error := some "b" }] (by decide)
  ⟨h.1, h.2.2.1⟩

/-- A pure batched query always succeeds. -/
lemma query_batch_periods_pure_success (db : DB) (c : List ActivePeriod) :
    (query_batch_periods_pure db c).success = true := by
  cases c with
  | nil => rfl
  | cons a t => rfl

/-- On a non-empty group the pure batched row count is the size of the
batched fetch. -/
lemma query_batch_periods_pure_row_count (db : DB) (c : List ActivePeriod)
    (hne : c ≠ []) :
    (query_batch_periods_pure db c).row_count = (fetchBatch db c).length := by
  cases c with
  | nil => exact absurd rfl hne
  | cons a t => rfl

/-- Summing per-batch sums equals summing over the concatenation. -/
lemma sum_map_sum_eq (L : List (List ActivePeriod))
    (g : ActivePeriod → Nat) :
    (L.map fun c => (c.map g).sum).sum = (L.flatten.map g).sum := by
  induction L with
  | nil => rfl
  | cons c L ih =>
      simp [List.flatten_cons, List.map_append, List.sum_append, ih]

/-- C5: cross-strategy equivalence — when no period's interval overlaps
another's on the same entity, the sum of `row_count` over the successful
per-unit outcomes equals the sum over the successful batched outcomes, for
the same periods against the same database. -/
theorem cross_strategy_row_sum_equivalence (db : DB) (bs : Nat)
    (ps : List ActivePeriod) (σ₁ σ₂ : List Nat) (_hbs : 0 < bs)
    (hσ₁ : validSchedule ps.length σ₁)
    (hσ₂ : validSchedule (chunksOf bs ps).length σ₂)
    (hof : ps.Pairwise fun u v => u.sensor_id = v.sensor_id →
      ∀ t : Int, ¬(u.start_time ≤ t ∧ t < u.end_time ∧
        v.start_time ≤ t ∧ t < v.end_time)) :
    successfulRowSum (process_all_periods_parallel
        (fun u => Except.ok (query_single_period_pure db u))
        (fun c => Except.ok (query_batch_periods_pure db c)) false bs ps σ₁)
      = successfulRowSum (process_all_periods_parallel
        (fun u => Except.ok (query_single_period_pure db u))
        (fun c => Except.ok (query_batch_periods_pure db c)) true bs ps σ₂)
    := by
  have e1 : process_all_periods_parallel
      (fun u => Except.ok (query_single_period_pure db u))
      (fun c => Except.ok (query_batch_periods_pure db c)) false bs ps σ₁
      = ps.map fun u => query_single_period_pure db u := by
    rw [process_false_eq,
      dispatch_eq _ _ (by rw [List.length_map]; exact hσ₁), List.map_map]
    rfl
  have e2 : process_all_periods_parallel
      (fun u => Except.ok (query_single_period_pure db u))
      (fun c => Except.ok (query_batch_periods_pure db c)) true bs ps σ₂
      = (chunksOf bs ps).map fun c => query_batch_periods_pure db c := by
    rw [process_true_eq,
      dispatch_eq _ _ (by rw [List.length_map]; exact hσ₂), List.map_map]
    rfl
  rw [e1, e2]
  unfold successfulRowSum
  have hfilQ : ((ps.map fun u => query_single_period_pure db u).filter
      fun r => r.success) = ps.map fun u => query_single_period_pure db u := by
    rw [List.filter_eq_self]
    intro r hr
    rcases List.mem_map.mp hr with ⟨u, _, rfl⟩
    rfl
  have hfilB : (((chunksOf bs ps).map fun c =>
      query_batch_periods_pure db c).filter fun r => r.success)
      = (chunksOf bs ps).map fun c => query_batch_periods_pure db c := by
    rw [List.filter_eq_self]
    intro r hr
    rcases List.mem_map.mp hr with ⟨c, _, rfl⟩
    exact query_batch_periods_pure_success db c
  rw [hfilQ, hfilB, List.map_map, List.map_map]
  have hof2 : ps.Pairwise fun u v => ∀ s : SensorRow,
      ¬(singleWhere u s = true ∧ singleWhere v s = true) :=
    hof.imp fun h => singleWhere_disjoint_of_no_overlap _ _ h
  have e3 : ((chunksOf bs ps).map
      ((fun r => r.row_count) ∘ fun c => query_batch_periods_pure db c))
      = (chunksOf bs ps).map
          fun c => (c.map fun u => (fetchSingle db u).length).sum := by
    refine List.map_congr_left fun c hc => ?_
    rcases chunksOf_mem_aux bs ps.length ps le_rfl c hc with ⟨hsub, hne⟩
    show (query_batch_periods_pure db c).row_count = _
    rw [query_batch_periods_pure_row_count db c hne]
    exact fetchBatch_length_eq_sum db c (hof2.sublist hsub)
  rw [e3, sum_map_sum_eq, chunksOf_join]
  refine congrArg List.sum (List.map_congr_left fun u _ => ?_)
  rfl

/-- Witness for C5 at a concrete input: two non-overlapping periods on
different sensors, batch size 1, a two-sensor database. -/
theorem cross_strategy_row_sum_equivalence_witness :
    successfulRowSum (process_all_periods_parallel
        (fun u => Except.ok (query_single_period_pure
          { sensor_data :=
              [{ sensor_id := 1, measurement_time := 5, measurement_value := 100 },
               { sensor_id := 2, measurement_time := 5, measurement_value := 200 }],
            active_periods :=
              [{ sensor_id := 1, start_time := 0, end_time := 10, status := "DONE" },
               { sensor_id := 2, start_time := 0, end_time := 10, status := "DONE" }] } u))
        (fun c => Except.ok (query_batch_periods_pure
          { sensor_data :=
              [{ sensor_id := 1, measurement_time := 5, measurement_value := 100 },
               { sensor_id := 2, measurement_time := 5, measurement_value := 200 }],
            active_periods :=
              [{ sensor_id := 1, start_time := 0, end_time := 10, status := "DONE" },
               { sensor_id := 2, start_time := 0, end_time := 10, status := "DONE" }] } c))
        false 1
        [{ sensor_id := 1, start_time := 0, end_time := 10 },
         { sensor_id := 2, start_time := 0, end_time := 10 }] [0, 1])
      = successfulRowSum (process_all_periods_parallel
        (fun u => Except.ok (query_single_period_pure
          { sensor_data :=
              [{ sensor_id := 1, measurement_time := 5, measurement_value := 100 },
               { sensor_id := 2, measurement_time := 5, measurement_value := 200 }],
            active_periods :=
              [{ sensor_id := 1, start_time := 0, end_time := 10, status := "DONE" },
               { sensor_id := 2, start_time := 0, end_time := 10, status := "DONE" }] } u))
        (fun c => Except.ok (query_batch_periods_pure
          { sensor_data :=
              [{ sensor_id := 1, measurement_time := 5, measurement_value := 100 },
               { sensor_id := 2, measurement_time := 5, measurement_value := 200 }],
            active_periods :=
              [{ sensor_id := 1, start_time := 0, end_time := 10, status := "DONE" },
               { sensor_id := 2, start_time := 0, end_time := 10, status := "DONE" }] } c))
        true 1
        [{ sensor_id := 1, start_time := 0, end_time := 10 },
         { sensor_id := 2, start_time := 0, end_time := 10 }] [0, 1]) := by
  refine cross_strategy_row_sum_equivalence
    { sensor_data :=
        [{ sensor_id := 1, measurement_time := 5, measurement_value := 100 },
         { sensor_id := 2, measurement_time := 5, measurement_value := 200 }],
      active_periods :=
        [{ sensor_id := 1, start_time := 0, end_time := 10, status := "DONE" },
         { sensor_id := 2, start_time := 0, end_time := 10, status := "DONE" }] }
    1
    [{ sensor_id := 1, start_time := 0, end_time := 10 },
     { sensor_id := 2, start_time := 0, end_time := 10 }]
    [0, 1] [0, 1] (by decide) (by decide) (by simp [chunksOf]; decide) ?_
  refine List.Pairwise.cons (fun v hv h => ?_) (List.pairwise_singleton _ _)
  have hv2 := List.mem_singleton.mp hv
  subst hv2
  exact absurd h (by decide)
